import Mathlib

/-
Shallow embedding of the rust_mpsc_queue crate (src/src/lib.rs).

The crate is a mutex-plus-condvar MPSC channel: `Inner<T>` wraps a
`Mutex<VecDeque<T>>`, `MpscQueue<T>` holds that buffer and a `Condvar`,
`Sender<T>` and `Receiver<T>` hold an `Arc<MpscQueue<T>>`, and the
`Receiver` additionally holds a local `cache_ : VecDeque<T>`.

Embedding choices:
- The `VecDeque<T>` contents are a `List T` with the front at the head.
- The `Arc`-shared `MpscQueue` state is threaded explicitly through every
  operation (explicit state passing); the mutex is modelled by recording,
  on each operation's result, whether the shared lock was acquired.
- The condvar carries no data; a call to `cv_.notify_one()` is recorded as
  a boolean on the result of `push_back`.
- Blocking: the only wait in the source is the `while is_empty { cv_.wait }`
  loop inside `pop_front`. Under the sequential semantics used here (no
  interleaved pusher) an empty buffer means that loop never exits, which the
  model renders as an explicit `blocked` outcome.
- The source derives `Clone` for `Sender` (cloning copies the `Arc` and
  changes no shared state) and defines no `Drop` impl for `Sender` (dropping
  one only releases its `Arc` reference), so both are modelled as the
  identity on the shared state. The source has no sender count and no
  closed flag.
-/

namespace RustMpsc

/-- Rust VecDeque pop_front on the list model: returns the removed front
element (none when the deque is empty) together with the remaining contents. -/
def vdPopFront {T : Type} : List T → Option T × List T
  | [] => (none, [])
  | x :: xs => (some x, xs)

/-- Struct Inner from the source: `inner_: Mutex<VecDeque<T>>`. The field holds
the deque contents; lock acquisition is recorded at the call sites. -/
structure Inner (T : Type) where
  inner_ : List T
  deriving DecidableEq

/-- Struct MpscQueue from the source: the shared state `buffer_: Inner<T>` plus
`cv_: Condvar`. The condvar holds no data, so only the buffer is carried. -/
structure MpscQueue (T : Type) where
  buffer_ : Inner T
  deriving DecidableEq

/-- Struct Sender from the source: it holds only `queue_: Arc<MpscQueue<T>>`,
which the embedding passes explicitly to each operation. -/
structure Sender (T : Type) where
  deriving DecidableEq

/-- Struct Receiver from the source: it holds `queue_: Arc<MpscQueue<T>>`
(passed explicitly) and the local buffer `cache_: VecDeque<T>`. -/
structure Receiver (T : Type) where
  cache_ : List T
  deriving DecidableEq

/-- MpscQueue::push_back from the source: lock the buffer, VecDeque push_back
of `p_data` onto the tail, unlock, then `cv_.notify_one()`. The boolean records
that notify_one was called. The function has no wait of any kind, so it always
returns (the queue is unbounded: no capacity to block on). -/
def MpscQueue.push_back {T : Type} (q : MpscQueue T) (p_data : T) :
    MpscQueue T × Bool :=
  (⟨⟨q.buffer_.inner_ ++ [p_data]⟩⟩, true)

/-- Outcome of a call to MpscQueue::pop_front: either the call returns value
`v` leaving shared state `q`, or it is blocked inside the condvar wait loop. -/
inductive PopResult (T : Type) where
  | ret (v : Option T) (q : MpscQueue T)
  | blocked
  deriving DecidableEq

/-- MpscQueue::pop_front from the source: lock the buffer, then
`while locked_buffer.is_empty() { cv_.wait }`; with no concurrent pusher the
loop never exits on an empty buffer, so the call blocks. On a non-empty buffer
the loop is skipped and VecDeque pop_front removes and returns the front. -/
def MpscQueue.pop_front {T : Type} (q : MpscQueue T) : PopResult T :=
  if q.buffer_.inner_.isEmpty then
    PopResult.blocked
  else
    PopResult.ret (vdPopFront q.buffer_.inner_).1 ⟨⟨(vdPopFront q.buffer_.inner_).2⟩⟩

/-- Sender::enqueue from the source: delegates to `self.queue_.push_back`. -/
def Sender.enqueue {T : Type} (q : MpscQueue T) (p_data : T) : MpscQueue T × Bool :=
  q.push_back p_data

/-- Sender is `derive(Clone)` in the source: cloning copies the `Arc` handle and
leaves the shared MpscQueue state unchanged (no sender count exists to bump). -/
def Sender.clone {T : Type} (q : MpscQueue T) : MpscQueue T :=
  q

/-- The source defines no Drop impl for Sender, no sender count and no closed
flag: dropping a Sender only releases its `Arc` reference and leaves the shared
MpscQueue state unchanged. -/
def Sender.drop {T : Type} (q : MpscQueue T) : MpscQueue T :=
  q

/-- Outcome of a Receiver::dequeue call: `ret v q cache locked` means the call
returned `v`, leaving shared buffer `q` and local cache `cache`, and `locked`
records whether the shared mutex was acquired during the call; `blocked` means
the call is stuck in the condvar wait loop inside pop_front. -/
inductive DequeueResult (T : Type) where
  | ret (v : Option T) (q : MpscQueue T) (cache : List T) (locked : Bool)
  | blocked
  deriving DecidableEq

/-- Receiver::dequeue from the source: if `cache_` is non-empty, return
`cache_.pop_front()` without touching the shared lock; otherwise delegate to
`self.queue_.pop_front()`, which acquires the lock. -/
def Receiver.dequeue {T : Type} (r : Receiver T) (q : MpscQueue T) : DequeueResult T :=
  if !r.cache_.isEmpty then
    DequeueResult.ret (vdPopFront r.cache_).1 q (vdPopFront r.cache_).2 false
  else
    match q.pop_front with
    | PopResult.ret v q2 => DequeueResult.ret v q2 r.cache_ true
    | PopResult.blocked => DequeueResult.blocked

/-- MpscQueue::new from the source: allocates the shared state with an empty
buffer and a fresh condvar, and returns the Sender and the Receiver (with an
empty `cache_`), both holding an `Arc` to it. The shared state is returned as
the last component since the embedding threads it explicitly. -/
def MpscQueue.new {T : Type} : Sender T × Receiver T × MpscQueue T :=
  (⟨⟩, ⟨[]⟩, ⟨⟨[]⟩⟩)

/-- Enqueue every element of a list in order through a Sender. -/
def enqueueAll {T : Type} (q : MpscQueue T) : List T → MpscQueue T
  | [] => q
  | v :: vs => enqueueAll (Sender.enqueue q v).1 vs

/-- Run n successive dequeue calls, collecting the returned values in order,
together with the final receiver-local and shared state; stops early if a call
returns the absent value or blocks. -/
def dequeueN {T : Type} (r : Receiver T) (q : MpscQueue T) :
    Nat → List T × Receiver T × MpscQueue T
  | 0 => ([], r, q)
  | n + 1 =>
    match Receiver.dequeue r q with
    | DequeueResult.ret (some v) q2 c2 _ =>
      let t := dequeueN ⟨c2⟩ q2 n
      (v :: t.1, t.2.1, t.2.2)
    | DequeueResult.ret none q2 c2 _ => ([], ⟨c2⟩, q2)
    | DequeueResult.blocked => ([], r, q)

/-- Channel-level state: the shared queue plus the Receiver's local state. -/
structure Chan (T : Type) where
  shared : MpscQueue T
  recv : Receiver T
  deriving DecidableEq

/-- One channel operation from the crate's API, as a step relation on
channel-level state: enqueue through a Sender, clone a Sender, drop a Sender,
or a returning dequeue call by the Receiver. -/
inductive Step {T : Type} : Chan T → Chan T → Prop where
  | enqueue (s : Chan T) (v : T) : Step s ⟨(Sender.enqueue s.shared v).1, s.recv⟩
  | clone (s : Chan T) : Step s ⟨Sender.clone s.shared, s.recv⟩
  | dropSender (s : Chan T) : Step s ⟨Sender.drop s.shared, s.recv⟩
  | dequeue (s : Chan T) (v : Option T) (q2 : MpscQueue T) (c2 : List T) (l : Bool) :
      Receiver.dequeue s.recv s.shared = DequeueResult.ret v q2 c2 l →
      Step s ⟨q2, ⟨c2⟩⟩

/-- Channel states reachable from a fresh channel (MpscQueue::new) by any
sequence of operations. -/
inductive Reachable {T : Type} : Chan T → Prop where
  | new : Reachable ⟨(MpscQueue.new).2.2, (MpscQueue.new).2.1⟩
  | step (s s2 : Chan T) : Reachable s → Step s s2 → Reachable s2

/-- Dequeue on an empty cache and a non-empty shared buffer pops the front of
the shared buffer under the lock. -/
theorem dequeue_nil_cons {T : Type} (x : T) (xs : List T) :
    Receiver.dequeue ⟨[]⟩ ⟨⟨x :: xs⟩⟩ = DequeueResult.ret (some x) ⟨⟨xs⟩⟩ [] true := rfl

/-- Dequeue on a non-empty cache pops the cache front without the lock. -/
theorem dequeue_cache_cons {T : Type} (x : T) (c : List T) (q : MpscQueue T) :
    Receiver.dequeue ⟨x :: c⟩ q = DequeueResult.ret (some x) q c false := rfl

/-- Enqueueing a list of values appends them in order to the buffer tail. -/
theorem enqueueAll_eq {T : Type} (l vs : List T) :
    enqueueAll ⟨⟨l⟩⟩ vs = ⟨⟨l ++ vs⟩⟩ := by
  induction vs generalizing l with
  | nil => simp [enqueueAll]
  | cons v vs ih => simp [enqueueAll, Sender.enqueue, MpscQueue.push_back, ih]

/-- Draining a buffer of length n with an empty cache by n dequeue calls
returns exactly the buffer contents in order and leaves everything empty. -/
theorem dequeueN_all {T : Type} (b : List T) :
    dequeueN ⟨[]⟩ ⟨⟨b⟩⟩ b.length = (b, ⟨[]⟩, ⟨⟨[]⟩⟩) := by
  induction b with
  | nil => rfl
  | cons x xs ih => simp only [List.length_cons, dequeueN, dequeue_nil_cons, ih]

/-- Full drain starting from cache c and buffer b yields c then b, in order. -/
theorem dequeueN_cache {T : Type} (c b : List T) :
    (dequeueN ⟨c⟩ ⟨⟨b⟩⟩ (c.length + b.length)).1 = c ++ b := by
  induction c with
  | nil => simp [dequeueN_all]
  | cons y c ih =>
    have hlen : (y :: c).length + b.length = (c.length + b.length) + 1 := by
      simp [Nat.succ_add]
    rw [hlen, dequeueN, dequeue_cache_cons]
    simp [ih]

/-- A returning pop_front call always carries a present value: the wait loop
only exits on a non-empty buffer. -/
theorem pop_front_ret_some {T : Type} (q : MpscQueue T) (v : Option T)
    (q2 : MpscQueue T) (h : q.pop_front = PopResult.ret v q2) : ∃ x, v = some x := by
  unfold MpscQueue.pop_front at h
  cases hb : q.buffer_.inner_ with
  | nil => rw [hb] at h; simp at h
  | cons x xs =>
    rw [hb] at h
    simp [vdPopFront] at h
    exact ⟨x, h.1.symm⟩

/-- A returning dequeue call made with an empty cache leaves the cache empty
and went through the shared lock. -/
theorem dequeue_ret_of_empty_cache {T : Type} (r : Receiver T) (q : MpscQueue T)
    (v : Option T) (q2 : MpscQueue T) (c2 : List T) (l : Bool) (hc : r.cache_ = [])
    (h : Receiver.dequeue r q = DequeueResult.ret v q2 c2 l) :
    c2 = [] ∧ l = true := by
  unfold Receiver.dequeue at h
  rw [hc] at h
  simp only [List.isEmpty_nil, Bool.not_true, Bool.false_eq_true, if_false] at h
  cases hp : q.pop_front with
  | ret v3 q3 =>
    rw [hp] at h
    simp only [DequeueResult.ret.injEq] at h
    exact ⟨h.2.2.1.symm, h.2.2.2.symm⟩
  | blocked => rw [hp] at h; simp at h

/-- In every reachable channel state the Receiver's local cache is empty. -/
theorem reachable_cache_nil {T : Type} (s : Chan T) (h : Reachable s) :
    s.recv.cache_ = [] := by
  induction h with
  | new => rfl
  | step s s2 hr hstep ih =>
    cases hstep with
    | enqueue v => exact ih
    | clone => exact ih
    | dropSender => exact ih
    | dequeue v q2 c2 l hd =>
      exact (dequeue_ret_of_empty_cache s.recv s.shared v q2 c2 l ih hd).1

/-- Claim C1 (refuted by the code, evaluated at the failing input): after
enqueueing 10 then 20 through the sole Sender of a fresh channel and dropping
that Sender, the first two dequeue calls do return 10 and 20 in enqueue order,
but the third dequeue call blocks forever in pop_front's wait loop instead of
returning the absent end-of-stream result, because no closed flag exists and
dropping a Sender changes nothing. -/
theorem dequeue_after_drain_blocks_forever :
    (dequeueN (MpscQueue.new (T := Nat)).2.1
        (Sender.drop (enqueueAll (MpscQueue.new (T := Nat)).2.2 [10, 20])) 2).1 =
      [10, 20] ∧
    Receiver.dequeue
        (dequeueN (MpscQueue.new (T := Nat)).2.1
          (Sender.drop (enqueueAll (MpscQueue.new (T := Nat)).2.2 [10, 20])) 2).2.1
        (dequeueN (MpscQueue.new (T := Nat)).2.1
          (Sender.drop (enqueueAll (MpscQueue.new (T := Nat)).2.2 [10, 20])) 2).2.2 =
      DequeueResult.blocked := by
  decide

/-- Claim C2 (refuted by the code, evaluated at the failing input): on a
channel whose single value has been drained after the only Sender was dropped —
the state the spec calls Closed (queue empty, channel closed) — the next
dequeue call does not return the absent result immediately: the code has no
closed flag, so the call blocks in the condvar wait loop. -/
theorem dequeue_on_drained_channel_blocks :
    Receiver.dequeue
        (dequeueN (MpscQueue.new (T := Nat)).2.1
          (Sender.drop (enqueueAll (MpscQueue.new (T := Nat)).2.2 [5])) 1).2.1
        (dequeueN (MpscQueue.new (T := Nat)).2.1
          (Sender.drop (enqueueAll (MpscQueue.new (T := Nat)).2.2 [5])) 1).2.2 =
      DequeueResult.blocked := by
  decide

/-- Claim C3 (refuted by the code, evaluated at the failing input): dropping
the last Sender of a fresh channel leaves the shared state unchanged — there is
no Drop impl, no sender count to decrement and no closed flag to set — and a
Receiver waiting on the empty channel is not woken: its dequeue call is still
blocked after the drop. -/
theorem drop_last_sender_does_not_wake :
    Sender.drop (MpscQueue.new (T := Nat)).2.2 = (MpscQueue.new (T := Nat)).2.2 ∧
    Receiver.dequeue (MpscQueue.new (T := Nat)).2.1
        (Sender.drop (MpscQueue.new (T := Nat)).2.2) =
      DequeueResult.blocked := by
  decide

/-- Claim C4 (confirmed): whenever a dequeue call returns at all, the returned
value is present, never the absent result: the cache branch is guarded by
non-emptiness, and pop_front's wait loop only exits on a non-empty buffer, so
its pop also yields a present value. -/
theorem dequeue_never_returns_none (T : Type) (r : Receiver T) (q : MpscQueue T)
    (v : Option T) (q2 : MpscQueue T) (c2 : List T) (l : Bool)
    (h : Receiver.dequeue r q = DequeueResult.ret v q2 c2 l) : ∃ x, v = some x := by
  unfold Receiver.dequeue at h
  cases hc : r.cache_ with
  | nil =>
    rw [hc] at h
    simp only [List.isEmpty_nil, Bool.not_true, Bool.false_eq_true, if_false] at h
    cases hp : q.pop_front with
    | ret v3 q3 =>
      rw [hp] at h
      simp only [DequeueResult.ret.injEq] at h
      obtain ⟨x, hx⟩ := pop_front_ret_some q v3 q3 hp
      exact ⟨x, h.1 ▸ hx⟩
    | blocked => rw [hp] at h; simp at h
  | cons x xs =>
    rw [hc] at h
    simp [vdPopFront] at h
    exact ⟨x, h.1.symm⟩

/-- Witness for C4 at a concrete input: on a receiver with empty cache and a
shared buffer holding 7, dequeue returns, and the returned value is present. -/
theorem dequeue_never_returns_none_witness : ∃ x, (some 7 : Option Nat) = some x :=
  dequeue_never_returns_none Nat ⟨[]⟩ ⟨⟨[7]⟩⟩ (some 7) ⟨⟨[]⟩⟩ [] true (by decide)

/-- Claim C5 (confirmed): FIFO order — enqueueing the values vs through the
single Sender of a fresh channel and then dequeuing vs.length times returns
exactly vs, in enqueue order. -/
theorem fifo_single_sender (T : Type) (vs : List T) :
    (dequeueN (MpscQueue.new (T := T)).2.1
        (enqueueAll (MpscQueue.new (T := T)).2.2 vs) vs.length).1 = vs := by
  show (dequeueN ⟨[]⟩ (enqueueAll ⟨⟨[]⟩⟩ vs) vs.length).1 = vs
  have h1 : enqueueAll (T := T) ⟨⟨[]⟩⟩ vs = ⟨⟨vs⟩⟩ := by simpa using enqueueAll_eq [] vs
  rw [h1, dequeueN_all]

/-- Claim C6 (confirmed): enqueue appends the value to the tail of the shared
buffer under the lock and then calls notify_one (recorded as the true flag);
push_back contains no wait of any kind, so the call never blocks on capacity. -/
theorem enqueue_appends_tail_and_notifies (T : Type) (q : MpscQueue T) (v : T) :
    Sender.enqueue q v = (⟨⟨q.buffer_.inner_ ++ [v]⟩⟩, true) := rfl

/-- Claim C7 (partially refuted by the code, evaluated at the input): new()
always succeeds without blocking and returns one Sender and one Receiver with
an empty shared buffer and an empty receiver cache — but the allocated shared
state consists of the buffer and the condvar only: it has no open_sender_count
field to set to 1 and no closed field to set to false. -/
theorem new_allocates_empty_state (T : Type) :
    MpscQueue.new (T := T) = (⟨⟩, ⟨[]⟩, ⟨⟨[]⟩⟩) := rfl

/-- Claim C8 (refuted by the code): the close transition the claim describes
does not exist — dropping a Sender and cloning a Sender both leave the shared
state unchanged, no sender count or closed flag exists, and no operation ever
closes the channel. -/
theorem sender_drop_and_clone_are_noops (T : Type) (q : MpscQueue T) :
    Sender.drop q = q ∧ Sender.clone q = q := ⟨rfl, rfl⟩

/-- Claim C9 (confirmed): on a receiver whose local cache is non-empty, dequeue
pops and returns the cache front, leaving the shared buffer untouched and
without acquiring the shared lock; the shared lock is never taken while the
cache is non-empty; and a full drain delivers the cache contents followed by
the shared buffer contents, preserving order. -/
theorem cache_fast_path_in_order (T : Type) (r : Receiver T) (q : MpscQueue T)
    (h : r.cache_ ≠ []) :
    (∃ x rest, r.cache_ = x :: rest ∧
        Receiver.dequeue r q = DequeueResult.ret (some x) q rest false) ∧
    (∀ v q2 c2, Receiver.dequeue r q ≠ DequeueResult.ret v q2 c2 true) ∧
    (dequeueN r q (r.cache_.length + q.buffer_.inner_.length)).1 =
      r.cache_ ++ q.buffer_.inner_ := by
  obtain ⟨x, c, hc⟩ := List.exists_cons_of_ne_nil h
  have hr : r = ⟨x :: c⟩ := by rw [← hc]
  refine ⟨⟨x, c, hc, ?_⟩, ?_, ?_⟩
  · rw [hr, dequeue_cache_cons]
  · intro v q2 c2 hcontra
    rw [hr, dequeue_cache_cons] at hcontra
    simp at hcontra
  · rw [hr]
    exact dequeueN_cache (x :: c) q.buffer_.inner_

/-- Witness for C9 at a concrete input: cache holding 1, 2 and shared buffer
holding 3. -/
theorem cache_fast_path_in_order_witness :
    (∃ x rest, ([1, 2] : List Nat) = x :: rest ∧
        Receiver.dequeue ⟨[1, 2]⟩ ⟨⟨[3]⟩⟩ = DequeueResult.ret (some x) ⟨⟨[3]⟩⟩ rest false) ∧
    (∀ v q2 c2,
        Receiver.dequeue (T := Nat) ⟨[1, 2]⟩ ⟨⟨[3]⟩⟩ ≠ DequeueResult.ret v q2 c2 true) ∧
    (dequeueN (T := Nat) ⟨[1, 2]⟩ ⟨⟨[3]⟩⟩
        (([1, 2] : List Nat).length + ([3] : List Nat).length)).1 = [1, 2] ++ [3] :=
  cache_fast_path_in_order Nat ⟨[1, 2]⟩ ⟨⟨[3]⟩⟩ (by decide)

/-- Claim C10 (confirmed): in every channel state reachable by any sequence of
operations the Receiver's local cache is empty — nothing ever inserts into it —
so the non-empty fast path of dequeue is never taken: any returning dequeue call
goes through the shared lock (the locked flag is never false). -/
theorem reachable_cache_empty (T : Type) (s : Chan T) (h : Reachable s) :
    s.recv.cache_ = [] ∧
    ∀ v q2 c2,
      Receiver.dequeue s.recv s.shared ≠ DequeueResult.ret v q2 c2 false := by
  have hc := reachable_cache_nil s h
  refine ⟨hc, ?_⟩
  intro v q2 c2 hcontra
  have := (dequeue_ret_of_empty_cache s.recv s.shared v q2 c2 false hc hcontra).2
  simp at this

/-- Witness for C10 at a concrete input: the fresh channel state itself. -/
theorem reachable_cache_empty_witness :
    ((⟨⟨⟨[]⟩⟩, ⟨[]⟩⟩ : Chan Nat).recv.cache_ = [] ∧
      ∀ v q2 c2,
        Receiver.dequeue (⟨⟨⟨[]⟩⟩, ⟨[]⟩⟩ : Chan Nat).recv
            (⟨⟨⟨[]⟩⟩, ⟨[]⟩⟩ : Chan Nat).shared ≠
          DequeueResult.ret v q2 c2 false) :=
  reachable_cache_empty Nat ⟨⟨⟨[]⟩⟩, ⟨[]⟩⟩ Reachable.new

end RustMpsc
